import Mathlib

set_option maxHeartbeats 1000000

/-!
Shallow embedding of `api/http/proxy/factory/docker/volumes.go` (resource-control
decoration and filtering of Docker volume API responses), together with the
repository helpers it calls (`portainer.GetResourceControlByResourceIDAndType`,
`portainer.UserCanAccessResource`, `decorateObject`, `applyResourceAccessControl`,
`applyResourceAccessControlFromLabel`, `decorateResourceWithAccessControl`,
`decorateResourceWithAccessControlFromLabel`, `responseutils.GetJSONObject`,
`responseutils.RewriteResponse`, `responseutils.RewriteAccessDeniedResponse`).
Those helpers live outside the provided source tree; they are modelled from the
specification (sections 4.1, 4.2, 4.3 and 6) and their doc comments say so.

Decoded JSON bodies are modelled by the inductive `JVal`; a Go
`map[string]interface{}` is an ordered association list `List (String × JVal)`.
Go's `m[k] == nil` is true both when the key is absent and when it holds JSON
null, which `goGet` captures.  A failed Go type assertion (`x.(string)`,
`x.(map[string]interface{})`, `x.([]interface{})`) aborts the program with a
runtime panic; panics are modelled as the distinguished error
`DockerOpError.typeAssertionPanic`, kept distinct from the ordinary error value
`DockerOpError.volumeIdentifierNotFound` that models
`errDockerVolumeIdentifierNotFound`.  The HTTP plumbing (reading the buffered
body, writing the rewritten one) is external to the engine: operations take the
already-decoded top-level object and return the replacement body and status.
-/

namespace Portainer

/-- A decoded JSON value (the Go `interface{}` tree produced by JSON decoding). -/
inductive JVal where
  | null : JVal
  | bool : Bool → JVal
  | num : Int → JVal
  | str : String → JVal
  | arr : List JVal → JVal
  | obj : List (String × JVal) → JVal

/-- Errors of the embedded operations.  `volumeIdentifierNotFound` models the
declared error value `errDockerVolumeIdentifierNotFound`;
`typeAssertionPanic` models a Go runtime panic from a failed type assertion;
`dockerClientError` models an error returned by the Docker client. -/
inductive DockerOpError where
  | volumeIdentifierNotFound : DockerOpError
  | typeAssertionPanic : DockerOpError
  | dockerClientError : DockerOpError
deriving DecidableEq

/-- Association-list lookup on a decoded JSON object (raw: JSON null is kept). -/
def jget : List (String × JVal) → String → Option JVal
  | [], _ => none
  | kv :: rest, k => if kv.1 = k then some kv.2 else jget rest k

/-- Go map read `o[k]` followed by a `== nil` view: absent keys and JSON null
both read as Go `nil`, i.e. `none`. -/
def goGet (o : List (String × JVal)) (k : String) : Option JVal :=
  match jget o k with
  | some JVal.null => none
  | r => r

/-- Go map write `o[k] = v`: replaces the binding if the key is present,
otherwise appends it. -/
def goSet : List (String × JVal) → String → JVal → List (String × JVal)
  | [], k, v => [(k, v)]
  | kv :: rest, k, v => if kv.1 = k then (k, v) :: rest else kv :: goSet rest k v

/-- Go type assertion `x.(string)` on an `interface{}` value: succeeds on a
string, panics on anything else (including Go `nil`). -/
def goAssertString : Option JVal → Except DockerOpError String
  | some (JVal.str s) => Except.ok s
  | _ => Except.error DockerOpError.typeAssertionPanic

/-- Go type assertion `x.(map[string]interface{})`. -/
def JVal.asObj : JVal → Except DockerOpError (List (String × JVal))
  | JVal.obj o => Except.ok o
  | _ => Except.error DockerOpError.typeAssertionPanic

/-- Go type assertion `x.([]interface{})`. -/
def JVal.asArr : JVal → Except DockerOpError (List JVal)
  | JVal.arr l => Except.ok l
  | _ => Except.error DockerOpError.typeAssertionPanic

/-- Resource-control types of the data model (`portainer.ResourceControlType`).
Modelled from the spec: "`ResourceType` (enumerated tag: Container, Volume,
Network, Service, Stack, Secret, Config, ...)". -/
inductive ResourceControlType where
  | container : ResourceControlType
  | service : ResourceControlType
  | volume : ResourceControlType
  | network : ResourceControlType
  | secret : ResourceControlType
  | stack : ResourceControlType
  | config : ResourceControlType
deriving DecidableEq

/-- Numeric code of a resource-control type, used when the record is encoded
into a JSON decoration. -/
def ResourceControlType.code : ResourceControlType → Int
  | ResourceControlType.container => 1
  | ResourceControlType.service => 2
  | ResourceControlType.volume => 3
  | ResourceControlType.network => 4
  | ResourceControlType.secret => 5
  | ResourceControlType.stack => 6
  | ResourceControlType.config => 7

/-- Modelled from the spec: `OwnershipRecord` — "`ResourceID` (string,
upstream-assigned identifier), `ResourceType` (enumerated tag), `OwnerUserIDs`
(set of user identifiers), `OwnerTeamIDs` (set of team identifiers), `Public`
(boolean — visible to any authenticated caller)".  This is the missing
`portainer.ResourceControl` type (`rcType` stands for its `Type` field, which
cannot keep its Go name in Lean). -/
structure ResourceControl where
  resourceID : String
  rcType : ResourceControlType
  ownerUserIDs : List Nat
  ownerTeamIDs : List Nat
  public : Bool
deriving DecidableEq

/-- Modelled from the spec: `FindDirect(id, type, snapshot) → record|nil` —
"exact-match lookup on (ResourceID, ResourceType)".  This is the missing
`portainer.GetResourceControlByResourceIDAndType`. -/
def GetResourceControlByResourceIDAndType (resourceID : String)
    (resourceType : ResourceControlType) :
    List ResourceControl → Option ResourceControl
  | [] => none
  | rc :: rest =>
    if rc.resourceID = resourceID ∧ rc.rcType = resourceType then some rc
    else GetResourceControlByResourceIDAndType resourceID resourceType rest

/-- Modelled from the spec: `CanAccess(caller, record)` (section 4.1) —
nil record denies, then `Public`, owner-user match, owner-team intersection.
This is the missing `portainer.UserCanAccessResource`; the record argument is
an `Option` because the Go function receives a possibly-nil pointer. -/
def UserCanAccessResource (userID : Nat) (userTeamIDs : List Nat)
    (resourceControl : Option ResourceControl) : Bool :=
  match resourceControl with
  | none => false
  | some rc =>
    rc.public || rc.ownerUserIDs.contains userID ||
      rc.ownerTeamIDs.any (fun t => userTeamIDs.contains t)

/-- Modelled from the spec: `CallerContext` (section 3) with the field names the
source uses through `executor.operationContext` — this is the missing
`restrictedDockerOperationContext` structure. -/
structure restrictedDockerOperationContext where
  userID : Nat
  userTeamIDs : List Nat
  isAdmin : Bool
  endpointResourceAccess : Bool
  resourceControls : List ResourceControl

/-- A rewritten response: the replacement in-memory body plus the status code
that the proxy layer will write out. -/
structure RewrittenResponse where
  body : JVal
  statusCode : Nat

/-- Modelled from the spec: `EncodeAndReplace(response, structuredValue,
statusCode)` — this is the missing `responseutils.RewriteResponse`, reduced to
the value it installs on the response. -/
def RewriteResponse (body : JVal) (statusCode : Nat) : RewrittenResponse :=
  RewrittenResponse.mk body statusCode

/-- Modelled from the spec: `EmitAccessDenied(response)` — "replaces the
response with a fixed, schema-free denial payload and status".  This is the
missing `responseutils.RewriteAccessDeniedResponse`; it is a constant, so it
depends on no field of the object being denied. -/
def RewriteAccessDeniedResponse : RewrittenResponse :=
  RewrittenResponse.mk (JVal.obj [("message", JVal.str "access denied to resource")]) 403

/-- Modelled from the spec: `ExtractNestedObject(value, fieldName) →
structuredValue | nil` — this is the missing `responseutils.GetJSONObject`,
which pulls a nested object out of an item and yields Go `nil` when the field
is absent, null or not an object. -/
def GetJSONObject (o : List (String × JVal)) (k : String) :
    Option (List (String × JVal)) :=
  match goGet o k with
  | some (JVal.obj fields) => some fields
  | _ => none

/-- JSON encoding of a resource control, used by the decoration. -/
def encodeResourceControl (rc : ResourceControl) : JVal :=
  JVal.obj
    [ ("ResourceID", JVal.str rc.resourceID),
      ("Type", JVal.num rc.rcType.code),
      ("UserAccesses", JVal.arr (rc.ownerUserIDs.map (fun u => JVal.num (Int.ofNat u)))),
      ("TeamAccesses", JVal.arr (rc.ownerTeamIDs.map (fun t => JVal.num (Int.ofNat t)))),
      ("Public", JVal.bool rc.public) ]

/-- JSON encoding of a possibly-nil resource-control pointer. -/
def encodeResourceControlOption : Option ResourceControl → JVal
  | none => JVal.null
  | some rc => encodeResourceControl rc

/-- Modelled from the spec: "Decoration means injecting the resolved record (or
its absence) into one reserved, well-known field of the item" — this is the
missing `decorateObject`, which stores the record under the reserved
`"Portainer"` key. -/
def decorateObject (o : List (String × JVal)) (resourceControl : Option ResourceControl) :
    List (String × JVal) :=
  goSet o "Portainer" (JVal.obj [("ResourceControl", encodeResourceControlOption resourceControl)])

/-- Modelled from the spec (list shape, section 4.3): direct lookup on
(identifier, type); the item is kept (and decorated) exactly when a record
exists and the caller has blanket access or `CanAccess` grants.  This is the
missing `applyResourceAccessControl`; the second component is the `access`
flag. -/
def applyResourceAccessControl (resourceObject : List (String × JVal))
    (resourceIdentifier : String) (ctx : restrictedDockerOperationContext)
    (resourceType : ResourceControlType) : List (String × JVal) × Bool :=
  match GetResourceControlByResourceIDAndType resourceIdentifier resourceType ctx.resourceControls with
  | none => (resourceObject, false)
  | some resourceControl =>
    if ctx.isAdmin || ctx.endpointResourceAccess ||
        UserCanAccessResource ctx.userID ctx.userTeamIDs (some resourceControl) then
      (decorateObject resourceObject (some resourceControl), true)
    else
      (resourceObject, false)

/-- Modelled from the spec (section 4.2, step 2-3): read the label value and
run the same access check against the parent resource type.  This is the
missing `applyResourceAccessControlFromLabel`; a present non-string label
value panics on the `.(string)` assertion, as in the inspect path of the
source. -/
def applyResourceAccessControlFromLabel (labelsObject : Option (List (String × JVal)))
    (resourceObject : List (String × JVal)) (labelIdentifier : String)
    (ctx : restrictedDockerOperationContext) (resourceType : ResourceControlType) :
    Except DockerOpError (List (String × JVal) × Bool) :=
  match labelsObject with
  | none => Except.ok (resourceObject, false)
  | some labels =>
    match goGet labels labelIdentifier with
    | none => Except.ok (resourceObject, false)
    | some labelValue =>
      match goAssertString (some labelValue) with
      | Except.error e => Except.error e
      | Except.ok resourceIdentifier =>
        Except.ok (applyResourceAccessControl resourceObject resourceIdentifier ctx resourceType)

/-- Modelled from the spec (list shape, privileged callers): "keep the item,
attach `record` (or an empty/absent marker if none)" — this is the missing
`decorateResourceWithAccessControl`: decorate when a direct record exists,
leave the item untouched (absent marker) otherwise. -/
def decorateResourceWithAccessControl (resourceObject : List (String × JVal))
    (resourceIdentifier : String) (resourceControls : List ResourceControl)
    (resourceType : ResourceControlType) : List (String × JVal) :=
  match GetResourceControlByResourceIDAndType resourceIdentifier resourceType resourceControls with
  | some resourceControl => decorateObject resourceObject (some resourceControl)
  | none => resourceObject

/-- Modelled from the spec: the label-driven variant of the decoration above —
this is the missing `decorateResourceWithAccessControlFromLabel`. -/
def decorateResourceWithAccessControlFromLabel (labelsObject : Option (List (String × JVal)))
    (resourceObject : List (String × JVal)) (labelIdentifier : String)
    (resourceControls : List ResourceControl) (resourceType : ResourceControlType) :
    Except DockerOpError (List (String × JVal)) :=
  match labelsObject with
  | none => Except.ok resourceObject
  | some labels =>
    match goGet labels labelIdentifier with
    | none => Except.ok resourceObject
    | some labelValue =>
      match goAssertString (some labelValue) with
      | Except.error e => Except.error e
      | Except.ok resourceIdentifier =>
        Except.ok (decorateResourceWithAccessControl resourceObject resourceIdentifier
          resourceControls resourceType)

/-- The configured identifier field of a volume object (source constant
`volumeIdentifier`). -/
def volumeIdentifier : String := "Name"

/-- The stack-namespace label key (source constant
`volumeLabelForStackIdentifier`). -/
def volumeLabelForStackIdentifier : String := "com.docker.stack.namespace"

/-- Source `getInheritedResourceControlFromVolumeLabels`: inspects the volume
through the Docker client and resolves a stack resource control from its
labels.  The Docker client call is I/O; its outcome (the volume's labels as a
Go `map[string]string`, where a missing key reads as `""`, or an error) is
passed in as a parameter. -/
def getInheritedResourceControlFromVolumeLabels
    (volumeInspectResult : Except DockerOpError (List (String × String)))
    (resourceControls : List ResourceControl) :
    Except DockerOpError (Option ResourceControl) :=
  match volumeInspectResult with
  | Except.error e => Except.error e
  | Except.ok labels =>
    let swarmStackName := (labels.lookup volumeLabelForStackIdentifier).getD ""
    if swarmStackName ≠ "" then
      Except.ok (GetResourceControlByResourceIDAndType swarmStackName
        ResourceControlType.stack resourceControls)
    else
      Except.ok none

/-- Source `extractVolumeLabelsFromVolumeInspectObject`. -/
def extractVolumeLabelsFromVolumeInspectObject (responseObject : List (String × JVal)) :
    Option (List (String × JVal)) :=
  GetJSONObject responseObject "Labels"

/-- Source `extractVolumeLabelsFromVolumeListObject`. -/
def extractVolumeLabelsFromVolumeListObject (responseObject : List (String × JVal)) :
    Option (List (String × JVal)) :=
  GetJSONObject responseObject "Labels"

/-- Source `findInheritedVolumeResourceControl`: the direct volume record if
one exists, else the stack record named by the stack-namespace label, else
nil.  The unchecked `.(string)` assertions of the source are kept. -/
def findInheritedVolumeResourceControl (responseObject : List (String × JVal))
    (resourceControls : List ResourceControl) :
    Except DockerOpError (Option ResourceControl) :=
  match goAssertString (goGet responseObject volumeIdentifier) with
  | Except.error e => Except.error e
  | Except.ok volumeID =>
    match GetResourceControlByResourceIDAndType volumeID ResourceControlType.volume resourceControls with
    | some resourceControl => Except.ok (some resourceControl)
    | none =>
      match extractVolumeLabelsFromVolumeInspectObject responseObject with
      | none => Except.ok none
      | some volumeLabels =>
        match goGet volumeLabels volumeLabelForStackIdentifier with
        | none => Except.ok none
        | some labelValue =>
          match goAssertString (some labelValue) with
          | Except.error e => Except.error e
          | Except.ok inheritedSwarmStackIdentifier =>
            Except.ok (GetResourceControlByResourceIDAndType inheritedSwarmStackIdentifier
              ResourceControlType.stack resourceControls)

/-- Source `volumeInspectOperation`, applied to the decoded response object
(the JSON decode itself is the external `GetResponseAsJSONOBject`). -/
def volumeInspectOperation (responseObject : List (String × JVal))
    (ctx : restrictedDockerOperationContext) : Except DockerOpError RewrittenResponse :=
  if (goGet responseObject volumeIdentifier).isNone then
    Except.error DockerOpError.volumeIdentifierNotFound
  else
    match findInheritedVolumeResourceControl responseObject ctx.resourceControls with
    | Except.error e => Except.error e
    | Except.ok resourceControl =>
      if resourceControl.isNone && (ctx.isAdmin || ctx.endpointResourceAccess) then
        Except.ok (RewriteResponse (JVal.obj responseObject) 200)
      else if ctx.isAdmin || ctx.endpointResourceAccess ||
          UserCanAccessResource ctx.userID ctx.userTeamIDs resourceControl then
        Except.ok (RewriteResponse (JVal.obj (decorateObject responseObject resourceControl)) 200)
      else
        Except.ok RewriteAccessDeniedResponse

/-- Source `decorateVolumeList`: decorates every volume that has a direct or a
label-inherited resource control, failing on a missing identifier. -/
def decorateVolumeList : List JVal → List ResourceControl → Except DockerOpError (List JVal)
  | [], _ => Except.ok []
  | volume :: rest, resourceControls =>
    match volume.asObj with
    | Except.error e => Except.error e
    | Except.ok volumeObject =>
      if (goGet volumeObject volumeIdentifier).isNone then
        Except.error DockerOpError.volumeIdentifierNotFound
      else
        match goAssertString (goGet volumeObject volumeIdentifier) with
        | Except.error e => Except.error e
        | Except.ok volumeID =>
          let volumeObject1 := decorateResourceWithAccessControl volumeObject volumeID
            resourceControls ResourceControlType.volume
          match decorateResourceWithAccessControlFromLabel
              (extractVolumeLabelsFromVolumeListObject volumeObject1) volumeObject1
              volumeLabelForStackIdentifier resourceControls ResourceControlType.stack with
          | Except.error e => Except.error e
          | Except.ok volumeObject2 =>
            match decorateVolumeList rest resourceControls with
            | Except.error e => Except.error e
            | Except.ok decoratedRest => Except.ok (JVal.obj volumeObject2 :: decoratedRest)

/-- Source `filterVolumeList`: keeps (and decorates) the volumes the caller may
access; when the direct check does not grant access, the stack-namespace label
is consulted. -/
def filterVolumeList : List JVal → restrictedDockerOperationContext → Except DockerOpError (List JVal)
  | [], _ => Except.ok []
  | volume :: rest, ctx =>
    match volume.asObj with
    | Except.error e => Except.error e
    | Except.ok volumeObject =>
      if (goGet volumeObject volumeIdentifier).isNone then
        Except.error DockerOpError.volumeIdentifierNotFound
      else
        match goAssertString (goGet volumeObject volumeIdentifier) with
        | Except.error e => Except.error e
        | Except.ok volumeID =>
          let direct := applyResourceAccessControl volumeObject volumeID ctx
            ResourceControlType.volume
          match (if direct.2 then Except.ok direct
                 else applyResourceAccessControlFromLabel
                   (extractVolumeLabelsFromVolumeListObject direct.1) direct.1
                   volumeLabelForStackIdentifier ctx ResourceControlType.stack) with
          | Except.error e => Except.error e
          | Except.ok final =>
            match filterVolumeList rest ctx with
            | Except.error e => Except.error e
            | Except.ok filteredRest =>
              if final.2 then Except.ok (JVal.obj final.1 :: filteredRest)
              else Except.ok filteredRest

/-- Source `volumeListOperation`, applied to the decoded top-level response
object: when a `"Volumes"` array is present it is decorated (blanket access)
or filtered (restricted caller) and written back; otherwise the body is
rewritten unchanged.  Status is always 200 on success. -/
def volumeListOperation (responseObject : List (String × JVal))
    (ctx : restrictedDockerOperationContext) : Except DockerOpError RewrittenResponse :=
  match goGet responseObject "Volumes" with
  | none => Except.ok (RewriteResponse (JVal.obj responseObject) 200)
  | some volumesValue =>
    match volumesValue.asArr with
    | Except.error e => Except.error e
    | Except.ok volumeData =>
      match (if ctx.isAdmin || ctx.endpointResourceAccess then
               decorateVolumeList volumeData ctx.resourceControls
             else
               filterVolumeList volumeData ctx) with
      | Except.error e => Except.error e
      | Except.ok newVolumeData =>
        Except.ok (RewriteResponse
          (JVal.obj (goSet responseObject "Volumes" (JVal.arr newVolumeData))) 200)

/-! ## Specification-side definitions

The definitions below restate the per-item decisions of the engine in the
direct style of the specification (and, where a claim had to be amended, of
the amended claim).  They are compared with the source-derived operations by
the theorems that follow. -/

/-- Is this Go value a (non-nil) string? -/
def isStrOpt : Option JVal → Bool
  | some (JVal.str _) => true
  | _ => false

/-- The stack-namespace label field of an item is well typed: absent, or a
labels object whose label value, when present, is a string. -/
def wfLabelField (o : List (String × JVal)) : Bool :=
  match extractVolumeLabelsFromVolumeListObject o with
  | none => true
  | some ls =>
    match goGet ls volumeLabelForStackIdentifier with
    | none => true
    | some v => isStrOpt (some v)

/-- A well-formed volume object: the identifier field holds a string and the
stack-namespace label, when present, holds a string. -/
def wfVolumeObject (o : List (String × JVal)) : Bool :=
  isStrOpt (goGet o volumeIdentifier) && wfLabelField o

/-- A well-formed element of the `"Volumes"` array: a well-formed object. -/
def wfElem : JVal → Bool
  | JVal.obj o => wfVolumeObject o
  | _ => false

/-- The string identifier of a well-formed volume object (defaults to `""`
on ill-formed input, which well-formedness rules out). -/
def identifierOf (o : List (String × JVal)) : String :=
  match goGet o volumeIdentifier with
  | some (JVal.str s) => s
  | _ => ""

/-- The string value of the stack-namespace label, when present. -/
def stackLabelValueOf (o : List (String × JVal)) : Option String :=
  match extractVolumeLabelsFromVolumeListObject o with
  | none => none
  | some ls =>
    match goGet ls volumeLabelForStackIdentifier with
    | some (JVal.str s) => some s
    | _ => none

/-- The stack record the item's label resolves to, if any. -/
def stackParentOf (o : List (String × JVal)) (resourceControls : List ResourceControl) :
    Option ResourceControl :=
  match stackLabelValueOf o with
  | none => none
  | some s => GetResourceControlByResourceIDAndType s ResourceControlType.stack resourceControls

/-- The effective ownership record of an item, per the specification's
`FindEffective`: the direct record if one exists, else the record the
stack-namespace label resolves to, else nil. -/
def effectiveOf (o : List (String × JVal)) (resourceControls : List ResourceControl) :
    Option ResourceControl :=
  match GetResourceControlByResourceIDAndType (identifierOf o) ResourceControlType.volume resourceControls with
  | some rc => some rc
  | none => stackParentOf o resourceControls

/-- Blanket or record-based grant for one record, exactly the disjunction the
source tests. -/
def grantsAccess (ctx : restrictedDockerOperationContext) (rc : ResourceControl) : Bool :=
  ctx.isAdmin || ctx.endpointResourceAccess ||
    UserCanAccessResource ctx.userID ctx.userTeamIDs (some rc)

/-- Label-fallback outcome of the restricted list decision: the decorated item
when the label resolves to a record that grants access, otherwise a drop. -/
def labelFallbackOutcome (ctx : restrictedDockerOperationContext)
    (o : List (String × JVal)) : Option (List (String × JVal)) :=
  match stackParentOf o ctx.resourceControls with
  | none => none
  | some rc => if grantsAccess ctx rc then some (decorateObject o (some rc)) else none

/-- Per-item outcome of the restricted list decision, in the words of the
amended claim: the item is kept (decorated with the granting record) when the
direct record exists and grants access, or when the direct record does not
grant access — it is absent or denies — and the label-resolved parent record
exists and grants access; otherwise it is dropped. -/
def listItemOutcome (ctx : restrictedDockerOperationContext)
    (o : List (String × JVal)) : Option (List (String × JVal)) :=
  match GetResourceControlByResourceIDAndType (identifierOf o) ResourceControlType.volume ctx.resourceControls with
  | some rc =>
    if grantsAccess ctx rc then some (decorateObject o (some rc))
    else labelFallbackOutcome ctx o
  | none => labelFallbackOutcome ctx o

/-- The restricted list decision lifted to array elements. -/
def listElemOutcome (ctx : restrictedDockerOperationContext) : JVal → Option JVal
  | JVal.obj o => (listItemOutcome ctx o).map JVal.obj
  | _ => none

/-- Closed form of the privileged (blanket-access) per-item decoration: attach
the direct record if one exists, then attach the label-resolved stack record
if one exists. -/
def decorateListItem (resourceControls : List ResourceControl)
    (o : List (String × JVal)) : List (String × JVal) :=
  let o1 := match GetResourceControlByResourceIDAndType (identifierOf o) ResourceControlType.volume resourceControls with
    | some rc => decorateObject o (some rc)
    | none => o
  match stackParentOf o1 resourceControls with
  | some rc => decorateObject o1 (some rc)
  | none => o1

/-- The privileged decoration lifted to array elements. -/
def decorateElem (resourceControls : List ResourceControl) : JVal → JVal
  | JVal.obj o => JVal.obj (decorateListItem resourceControls o)
  | v => v

/-- Does any record resolve for the item (directly or through its label)? -/
def recordResolves (resourceControls : List ResourceControl)
    (o : List (String × JVal)) : Bool :=
  (GetResourceControlByResourceIDAndType (identifierOf o) ResourceControlType.volume resourceControls).isSome ||
    (stackParentOf o resourceControls).isSome

/-! ## Basic lemmas about the object model -/

theorem jget_goSet_self (o : List (String × JVal)) (k : String) (v : JVal) :
    jget (goSet o k v) k = some v := by
  induction o with
  | nil => simp [goSet, jget]
  | cons kv rest ih =>
    by_cases h : kv.1 = k
    · simp [goSet, jget, h]
    · simp [goSet, jget, h, ih]

theorem jget_goSet_ne (o : List (String × JVal)) (k k' : String) (v : JVal)
    (h : k' ≠ k) : jget (goSet o k v) k' = jget o k' := by
  induction o with
  | nil => simp [goSet, jget, Ne.symm h]
  | cons kv rest ih =>
    by_cases hk : kv.1 = k
    · simp [goSet, jget, hk, Ne.symm h]
    · by_cases hk' : kv.1 = k'
      · simp [goSet, jget, hk, hk', h]
      · simp [goSet, jget, hk, hk', ih]

theorem goGet_goSet_ne (o : List (String × JVal)) (k k' : String) (v : JVal)
    (h : k' ≠ k) : goGet (goSet o k v) k' = goGet o k' := by
  simp [goGet, jget_goSet_ne o k k' v h]

/-- Decoration touches only the reserved `"Portainer"` field. -/
theorem decorateObject_jget_ne (o : List (String × JVal)) (rc : Option ResourceControl)
    (k : String) (h : k ≠ "Portainer") :
    jget (decorateObject o rc) k = jget o k := by
  simp [decorateObject, jget_goSet_ne _ _ _ _ h]

/-- The reserved field is present after decoration. -/
theorem decorateObject_jget_self (o : List (String × JVal)) (rc : Option ResourceControl) :
    jget (decorateObject o rc) "Portainer" =
      some (JVal.obj [("ResourceControl", encodeResourceControlOption rc)]) := by
  simp [decorateObject, jget_goSet_self]

/-- Decoration does not change the labels sub-object. -/
theorem extractVolumeLabels_decorateObject (o : List (String × JVal))
    (rc : Option ResourceControl) :
    extractVolumeLabelsFromVolumeListObject (decorateObject o rc) =
      extractVolumeLabelsFromVolumeListObject o := by
  have h : ("Labels" : String) ≠ "Portainer" := by decide
  simp [extractVolumeLabelsFromVolumeListObject, GetJSONObject, decorateObject,
    goGet, jget_goSet_ne _ _ _ _ h]

/-- Decoration does not change the stack label value. -/
theorem stackLabelValueOf_decorateObject (o : List (String × JVal))
    (rc : Option ResourceControl) :
    stackLabelValueOf (decorateObject o rc) = stackLabelValueOf o := by
  simp [stackLabelValueOf, extractVolumeLabels_decorateObject]

/-- Decoration does not change the identifier. -/
theorem identifierOf_decorateObject (o : List (String × JVal))
    (rc : Option ResourceControl) :
    identifierOf (decorateObject o rc) = identifierOf o := by
  have h : volumeIdentifier ≠ "Portainer" := by decide
  simp [identifierOf, decorateObject, goGet, jget_goSet_ne _ _ _ _ h]

/-- On a well-formed object the identifier field holds exactly
`identifierOf o`. -/
theorem identifierOf_spec (o : List (String × JVal))
    (h : isStrOpt (goGet o volumeIdentifier) = true) :
    goGet o volumeIdentifier = some (JVal.str (identifierOf o)) := by
  unfold identifierOf
  cases hv : goGet o volumeIdentifier with
  | none => simp [hv, isStrOpt] at h
  | some v => cases v <;> simp [hv, isStrOpt] at h ⊢

theorem wfVolumeObject_id (o : List (String × JVal)) (h : wfVolumeObject o = true) :
    goGet o volumeIdentifier = some (JVal.str (identifierOf o)) := by
  rw [wfVolumeObject, Bool.and_eq_true] at h
  exact identifierOf_spec o h.1

theorem wfVolumeObject_label (o : List (String × JVal)) (h : wfVolumeObject o = true) :
    wfLabelField o = true := by
  rw [wfVolumeObject, Bool.and_eq_true] at h
  exact h.2

/-- Case analysis on the stack label of a well-typed item: either no label
value resolves, or the labels object carries a string value. -/
theorem stackLabel_cases (o : List (String × JVal)) (h : wfLabelField o = true) :
    (stackLabelValueOf o = none ∧
      (extractVolumeLabelsFromVolumeListObject o = none ∨
        ∃ ls, extractVolumeLabelsFromVolumeListObject o = some ls ∧
          goGet ls volumeLabelForStackIdentifier = none)) ∨
    (∃ ls s, extractVolumeLabelsFromVolumeListObject o = some ls ∧
      goGet ls volumeLabelForStackIdentifier = some (JVal.str s) ∧
      stackLabelValueOf o = some s) := by
  cases hls : extractVolumeLabelsFromVolumeListObject o with
  | none => exact Or.inl ⟨by simp [stackLabelValueOf, hls], Or.inl rfl⟩
  | some ls =>
    cases hv : goGet ls volumeLabelForStackIdentifier with
    | none =>
      exact Or.inl ⟨by simp [stackLabelValueOf, hls, hv], Or.inr ⟨ls, rfl, hv⟩⟩
    | some v =>
      have h2 : isStrOpt (some v) = true := by
        simpa [wfLabelField, hls, hv] using h
      cases v <;> simp [isStrOpt] at h2
      case str s => exact Or.inr ⟨ls, s, rfl, hv, by simp [stackLabelValueOf, hls, hv]⟩

/-- The two label extractors of the source are the same function. -/
theorem extractVolumeLabels_eq (o : List (String × JVal)) :
    extractVolumeLabelsFromVolumeInspectObject o =
      extractVolumeLabelsFromVolumeListObject o := rfl

/-- On a well-formed object the source resolver computes exactly the
specification's effective record: the direct record first, else the record
named by the stack label, else nil — and it does not fail. -/
theorem findInheritedVolumeResourceControl_eq (o : List (String × JVal))
    (resourceControls : List ResourceControl) (h : wfVolumeObject o = true) :
    findInheritedVolumeResourceControl o resourceControls =
      Except.ok (effectiveOf o resourceControls) := by
  have hid := wfVolumeObject_id o h
  cases hrc : GetResourceControlByResourceIDAndType (identifierOf o)
      ResourceControlType.volume resourceControls with
  | some rc =>
    simp [findInheritedVolumeResourceControl, hid, goAssertString, hrc, effectiveOf]
  | none =>
    rcases stackLabel_cases o (wfVolumeObject_label o h) with ⟨hnone, hcase⟩ | ⟨ls, s, hls, hv, hval⟩
    · rcases hcase with hext | ⟨ls, hls, hv⟩
      · simp [findInheritedVolumeResourceControl, hid, goAssertString, hrc,
          extractVolumeLabels_eq, hext, effectiveOf, stackParentOf, hnone]
      · simp [findInheritedVolumeResourceControl, hid, goAssertString, hrc,
          extractVolumeLabels_eq, hls, hv, effectiveOf, stackParentOf, hnone]
    · simp [findInheritedVolumeResourceControl, hid, goAssertString, hrc,
        extractVolumeLabels_eq, hls, hv, effectiveOf, stackParentOf, hval]

/-- Characterization of the inspect operation on a well-formed object: the
effective record and the caller's grants fully determine the outcome. -/
theorem volumeInspectOperation_eq (o : List (String × JVal))
    (ctx : restrictedDockerOperationContext) (h : wfVolumeObject o = true) :
    volumeInspectOperation o ctx =
      Except.ok (match effectiveOf o ctx.resourceControls with
        | none =>
          if ctx.isAdmin || ctx.endpointResourceAccess then
            RewriteResponse (JVal.obj o) 200
          else RewriteAccessDeniedResponse
        | some rc =>
          if ctx.isAdmin || ctx.endpointResourceAccess ||
              UserCanAccessResource ctx.userID ctx.userTeamIDs (some rc) then
            RewriteResponse (JVal.obj (decorateObject o (some rc))) 200
          else RewriteAccessDeniedResponse) := by
  have hid := wfVolumeObject_id o h
  unfold volumeInspectOperation
  rw [hid, findInheritedVolumeResourceControl_eq o ctx.resourceControls h]
  cases heff : effectiveOf o ctx.resourceControls with
  | none =>
    cases hadm : (ctx.isAdmin || ctx.endpointResourceAccess) with
    | true => simp [hadm]
    | false => simp [hadm, UserCanAccessResource]
  | some rc =>
    cases hc : (ctx.isAdmin || ctx.endpointResourceAccess ||
        UserCanAccessResource ctx.userID ctx.userTeamIDs (some rc)) with
    | true => simp [hc]
    | false => simp [hc]

/-- One step of the restricted list filter on a well-formed object: the head
is kept or dropped exactly as `listItemOutcome` says, and the rest is
processed unchanged. -/
theorem filterVolumeList_cons (o : List (String × JVal)) (rest : List JVal)
    (ctx : restrictedDockerOperationContext) (h : wfVolumeObject o = true) :
    filterVolumeList (JVal.obj o :: rest) ctx =
      match listItemOutcome ctx o with
      | some o2 => (filterVolumeList rest ctx).map (fun l => JVal.obj o2 :: l)
      | none => filterVolumeList rest ctx := by
  have hid := wfVolumeObject_id o h
  have hlab := wfVolumeObject_label o h
  cases hrc : GetResourceControlByResourceIDAndType (identifierOf o)
      ResourceControlType.volume ctx.resourceControls with
  | some rc =>
    cases hg : grantsAccess ctx rc with
    | true =>
      have hg2 : (ctx.isAdmin || ctx.endpointResourceAccess ||
          UserCanAccessResource ctx.userID ctx.userTeamIDs (some rc)) = true := by
        simpa [grantsAccess] using hg
      cases hrest : filterVolumeList rest ctx <;>
        simp [filterVolumeList, JVal.asObj, hid, goAssertString,
          applyResourceAccessControl, hrc, hg2, listItemOutcome, hg, grantsAccess,
          hrest, Except.map]
    | false =>
      have hg2 : (ctx.isAdmin || ctx.endpointResourceAccess ||
          UserCanAccessResource ctx.userID ctx.userTeamIDs (some rc)) = false := by
        simpa [grantsAccess] using hg
      rcases stackLabel_cases o hlab with ⟨hnone, hcase⟩ | ⟨ls, s, hls, hv, hval⟩
      · rcases hcase with hext | ⟨ls, hls, hv⟩
        · cases hrest : filterVolumeList rest ctx <;>
            simp [filterVolumeList, JVal.asObj, hid, goAssertString,
              applyResourceAccessControl, hrc, hg2, applyResourceAccessControlFromLabel,
              hext, listItemOutcome, hg, grantsAccess, labelFallbackOutcome,
              stackParentOf, hnone, hrest, Except.map]
        · cases hrest : filterVolumeList rest ctx <;>
            simp [filterVolumeList, JVal.asObj, hid, goAssertString,
              applyResourceAccessControl, hrc, hg2, applyResourceAccessControlFromLabel,
              hls, hv, listItemOutcome, hg, grantsAccess, labelFallbackOutcome,
              stackParentOf, hnone, hrest, Except.map]
      · cases hsrc : GetResourceControlByResourceIDAndType s
            ResourceControlType.stack ctx.resourceControls with
        | some src =>
          cases hg3 : grantsAccess ctx src with
          | true =>
            have hg4 : (ctx.isAdmin || ctx.endpointResourceAccess ||
                UserCanAccessResource ctx.userID ctx.userTeamIDs (some src)) = true := by
              simpa [grantsAccess] using hg3
            cases hrest : filterVolumeList rest ctx <;>
              simp [filterVolumeList, JVal.asObj, hid, goAssertString,
                applyResourceAccessControl, hrc, hg2, applyResourceAccessControlFromLabel,
                hls, hv, hsrc, hg4, listItemOutcome, hg, grantsAccess, hg3,
                labelFallbackOutcome, stackParentOf, hval, hrest, Except.map]
          | false =>
            have hg4 : (ctx.isAdmin || ctx.endpointResourceAccess ||
                UserCanAccessResource ctx.userID ctx.userTeamIDs (some src)) = false := by
              simpa [grantsAccess] using hg3
            cases hrest : filterVolumeList rest ctx <;>
              simp [filterVolumeList, JVal.asObj, hid, goAssertString,
                applyResourceAccessControl, hrc, hg2, applyResourceAccessControlFromLabel,
                hls, hv, hsrc, hg4, listItemOutcome, hg, grantsAccess, hg3,
                labelFallbackOutcome, stackParentOf, hval, hrest, Except.map]
        | none =>
          cases hrest : filterVolumeList rest ctx <;>
            simp [filterVolumeList, JVal.asObj, hid, goAssertString,
              applyResourceAccessControl, hrc, hg2, applyResourceAccessControlFromLabel,
              hls, hv, hsrc, listItemOutcome, hg, grantsAccess,
              labelFallbackOutcome, stackParentOf, hval, hrest, Except.map]
  | none =>
    rcases stackLabel_cases o hlab with ⟨hnone, hcase⟩ | ⟨ls, s, hls, hv, hval⟩
    · rcases hcase with hext | ⟨ls, hls, hv⟩
      · cases hrest : filterVolumeList rest ctx <;>
          simp [filterVolumeList, JVal.asObj, hid, goAssertString,
            applyResourceAccessControl, hrc, applyResourceAccessControlFromLabel,
            hext, listItemOutcome, labelFallbackOutcome, stackParentOf, hnone,
            hrest, Except.map]
      · cases hrest : filterVolumeList rest ctx <;>
          simp [filterVolumeList, JVal.asObj, hid, goAssertString,
            applyResourceAccessControl, hrc, applyResourceAccessControlFromLabel,
            hls, hv, listItemOutcome, labelFallbackOutcome, stackParentOf, hnone,
            hrest, Except.map]
    · cases hsrc : GetResourceControlByResourceIDAndType s
          ResourceControlType.stack ctx.resourceControls with
      | some src =>
        cases hg3 : grantsAccess ctx src with
        | true =>
          have hg4 : (ctx.isAdmin || ctx.endpointResourceAccess ||
              UserCanAccessResource ctx.userID ctx.userTeamIDs (some src)) = true := by
            simpa [grantsAccess] using hg3
          cases hrest : filterVolumeList rest ctx <;>
            simp [filterVolumeList, JVal.asObj, hid, goAssertString,
              applyResourceAccessControl, hrc, applyResourceAccessControlFromLabel,
              hls, hv, hsrc, hg4, listItemOutcome, hg3, grantsAccess,
              labelFallbackOutcome, stackParentOf, hval, hrest, Except.map]
        | false =>
          have hg4 : (ctx.isAdmin || ctx.endpointResourceAccess ||
              UserCanAccessResource ctx.userID ctx.userTeamIDs (some src)) = false := by
            simpa [grantsAccess] using hg3
          cases hrest : filterVolumeList rest ctx <;>
            simp [filterVolumeList, JVal.asObj, hid, goAssertString,
              applyResourceAccessControl, hrc, applyResourceAccessControlFromLabel,
              hls, hv, hsrc, hg4, listItemOutcome, hg3, grantsAccess,
              labelFallbackOutcome, stackParentOf, hval, hrest, Except.map]
      | none =>
        cases hrest : filterVolumeList rest ctx <;>
          simp [filterVolumeList, JVal.asObj, hid, goAssertString,
            applyResourceAccessControl, hrc, applyResourceAccessControlFromLabel,
            hls, hv, hsrc, listItemOutcome, labelFallbackOutcome, stackParentOf,
            hval, hrest, Except.map]

/-- On a well-formed volume array the restricted filter is exactly the ordered
`filterMap` of the per-item decision. -/
theorem filterVolumeList_eq_filterMap (volumeData : List JVal)
    (ctx : restrictedDockerOperationContext)
    (h : ∀ v ∈ volumeData, wfElem v = true) :
    filterVolumeList volumeData ctx =
      Except.ok (volumeData.filterMap (listElemOutcome ctx)) := by
  induction volumeData with
  | nil => rfl
  | cons v rest ih =>
    have hv := h v (List.mem_cons_self v rest)
    have hrest : ∀ w ∈ rest, wfElem w = true :=
      fun w hw => h w (List.mem_cons_of_mem v hw)
    cases v with
    | obj o =>
      rw [filterVolumeList_cons o rest ctx (by simpa [wfElem] using hv), ih hrest]
      cases ho : listItemOutcome ctx o <;>
        simp [List.filterMap_cons, listElemOutcome, ho, Except.map]
    | null => simp [wfElem] at hv
    | bool b => simp [wfElem] at hv
    | num n => simp [wfElem] at hv
    | str s => simp [wfElem] at hv
    | arr l => simp [wfElem] at hv

/-- One step of the privileged list decoration on a well-formed object: the
head is decorated as `decorateListItem` says and the rest is processed
unchanged. -/
theorem decorateVolumeList_cons (o : List (String × JVal)) (rest : List JVal)
    (resourceControls : List ResourceControl) (h : wfVolumeObject o = true) :
    decorateVolumeList (JVal.obj o :: rest) resourceControls =
      (decorateVolumeList rest resourceControls).map
        (fun l => JVal.obj (decorateListItem resourceControls o) :: l) := by
  have hid := wfVolumeObject_id o h
  have hlab := wfVolumeObject_label o h
  cases hrc : GetResourceControlByResourceIDAndType (identifierOf o)
      ResourceControlType.volume resourceControls with
  | some rc =>
    rcases stackLabel_cases o hlab with ⟨hnone, hcase⟩ | ⟨ls, s, hls, hv, hval⟩
    · rcases hcase with hext | ⟨ls, hls, hv⟩
      · cases hrest : decorateVolumeList rest resourceControls <;>
          simp [decorateVolumeList, JVal.asObj, hid, goAssertString,
            decorateResourceWithAccessControl, hrc,
            decorateResourceWithAccessControlFromLabel,
            extractVolumeLabels_decorateObject, hext, decorateListItem,
            stackParentOf, stackLabelValueOf_decorateObject, hnone, hrest, Except.map]
      · cases hrest : decorateVolumeList rest resourceControls <;>
          simp [decorateVolumeList, JVal.asObj, hid, goAssertString,
            decorateResourceWithAccessControl, hrc,
            decorateResourceWithAccessControlFromLabel,
            extractVolumeLabels_decorateObject, hls, hv, decorateListItem,
            stackParentOf, stackLabelValueOf_decorateObject, hnone, hrest, Except.map]
    · cases hsrc : GetResourceControlByResourceIDAndType s
          ResourceControlType.stack resourceControls with
      | some src =>
        cases hrest : decorateVolumeList rest resourceControls <;>
          simp [decorateVolumeList, JVal.asObj, hid, goAssertString,
            decorateResourceWithAccessControl, hrc,
            decorateResourceWithAccessControlFromLabel,
            extractVolumeLabels_decorateObject, hls, hv, hsrc, decorateListItem,
            stackParentOf, stackLabelValueOf_decorateObject, hval, hrest, Except.map]
      | none =>
        cases hrest : decorateVolumeList rest resourceControls <;>
          simp [decorateVolumeList, JVal.asObj, hid, goAssertString,
            decorateResourceWithAccessControl, hrc,
            decorateResourceWithAccessControlFromLabel,
            extractVolumeLabels_decorateObject, hls, hv, hsrc, decorateListItem,
            stackParentOf, stackLabelValueOf_decorateObject, hval, hrest, Except.map]
  | none =>
    rcases stackLabel_cases o hlab with ⟨hnone, hcase⟩ | ⟨ls, s, hls, hv, hval⟩
    · rcases hcase with hext | ⟨ls, hls, hv⟩
      · cases hrest : decorateVolumeList rest resourceControls <;>
          simp [decorateVolumeList, JVal.asObj, hid, goAssertString,
            decorateResourceWithAccessControl, hrc,
            decorateResourceWithAccessControlFromLabel, hext, decorateListItem,
            stackParentOf, hnone, hrest, Except.map]
      · cases hrest : decorateVolumeList rest resourceControls <;>
          simp [decorateVolumeList, JVal.asObj, hid, goAssertString,
            decorateResourceWithAccessControl, hrc,
            decorateResourceWithAccessControlFromLabel, hls, hv, decorateListItem,
            stackParentOf, hnone, hrest, Except.map]
    · cases hsrc : GetResourceControlByResourceIDAndType s
          ResourceControlType.stack resourceControls with
      | some src =>
        cases hrest : decorateVolumeList rest resourceControls <;>
          simp [decorateVolumeList, JVal.asObj, hid, goAssertString,
            decorateResourceWithAccessControl, hrc,
            decorateResourceWithAccessControlFromLabel, hls, hv, hsrc,
            decorateListItem, stackParentOf, hval, hrest, Except.map]
      | none =>
        cases hrest : decorateVolumeList rest resourceControls <;>
          simp [decorateVolumeList, JVal.asObj, hid, goAssertString,
            decorateResourceWithAccessControl, hrc,
            decorateResourceWithAccessControlFromLabel, hls, hv, hsrc,
            decorateListItem, stackParentOf, hval, hrest, Except.map]

/-- On a well-formed volume array the privileged decoration is exactly the
ordered `map` of the per-item decoration: nothing is dropped or reordered. -/
theorem decorateVolumeList_eq_map (volumeData : List JVal)
    (resourceControls : List ResourceControl)
    (h : ∀ v ∈ volumeData, wfElem v = true) :
    decorateVolumeList volumeData resourceControls =
      Except.ok (volumeData.map (decorateElem resourceControls)) := by
  induction volumeData with
  | nil => rfl
  | cons v rest ih =>
    have hv := h v (List.mem_cons_self v rest)
    have hrest : ∀ w ∈ rest, wfElem w = true :=
      fun w hw => h w (List.mem_cons_of_mem v hw)
    cases v with
    | obj o =>
      rw [decorateVolumeList_cons o rest resourceControls (by simpa [wfElem] using hv),
        ih hrest]
      simp [decorateElem, Except.map]
    | null => simp [wfElem] at hv
    | bool b => simp [wfElem] at hv
    | num n => simp [wfElem] at hv
    | str s => simp [wfElem] at hv
    | arr l => simp [wfElem] at hv

/-- A kept item of the restricted filter differs from its source item only in
the reserved `"Portainer"` field. -/
theorem listItemOutcome_frame (ctx : restrictedDockerOperationContext)
    (o o2 : List (String × JVal)) (h : listItemOutcome ctx o = some o2)
    (k : String) (hk : k ≠ "Portainer") : jget o2 k = jget o k := by
  unfold listItemOutcome labelFallbackOutcome at h
  cases hrc : GetResourceControlByResourceIDAndType (identifierOf o)
      ResourceControlType.volume ctx.resourceControls <;> simp only [hrc] at h
  case some rc =>
    cases hg : grantsAccess ctx rc <;> simp only [hg] at h
    case true =>
      simp at h
      subst h
      exact decorateObject_jget_ne o (some rc) k hk
    case false =>
      simp only [Bool.false_eq_true, if_false] at h
      cases hsp : stackParentOf o ctx.resourceControls <;> simp only [hsp] at h
      case none => simp at h
      case some src =>
        cases hg2 : grantsAccess ctx src <;> simp only [hg2] at h <;> simp at h
        subst h
        exact decorateObject_jget_ne o (some src) k hk
  case none =>
    cases hsp : stackParentOf o ctx.resourceControls <;> simp only [hsp] at h
    case none => simp at h
    case some src =>
      cases hg2 : grantsAccess ctx src <;> simp only [hg2] at h <;> simp at h
      subst h
      exact decorateObject_jget_ne o (some src) k hk

/-- A decorated item of the privileged list differs from its source item only
in the reserved `"Portainer"` field. -/
theorem decorateListItem_frame (resourceControls : List ResourceControl)
    (o : List (String × JVal)) (k : String) (hk : k ≠ "Portainer") :
    jget (decorateListItem resourceControls o) k = jget o k := by
  unfold decorateListItem
  cases hrc : GetResourceControlByResourceIDAndType (identifierOf o)
      ResourceControlType.volume resourceControls with
  | some rc =>
    cases hsp : stackParentOf (decorateObject o (some rc)) resourceControls with
    | some src =>
      simp only [hsp]
      rw [decorateObject_jget_ne _ (some src) k hk, decorateObject_jget_ne _ (some rc) k hk]
    | none =>
      simp only [hsp]
      rw [decorateObject_jget_ne _ (some rc) k hk]
  | none =>
    cases hsp : stackParentOf o resourceControls with
    | some src =>
      simp only [hsp]
      rw [decorateObject_jget_ne _ (some src) k hk]
    | none => simp only [hsp]

/-- For an item that does not already carry the reserved field, the privileged
decoration installs it exactly when some record (direct or label-resolved)
exists for the item. -/
theorem decorateListItem_portainer (resourceControls : List ResourceControl)
    (o : List (String × JVal)) (hp : jget o "Portainer" = none) :
    (jget (decorateListItem resourceControls o) "Portainer").isSome =
      recordResolves resourceControls o := by
  unfold decorateListItem recordResolves
  cases hrc : GetResourceControlByResourceIDAndType (identifierOf o)
      ResourceControlType.volume resourceControls with
  | some rc =>
    cases hsp : stackParentOf (decorateObject o (some rc)) resourceControls with
    | some src => simp [hsp, decorateObject_jget_self]
    | none => simp [hsp, decorateObject_jget_self]
  | none =>
    have hsp_eq : stackParentOf o resourceControls =
        stackParentOf o resourceControls := rfl
    cases hsp : stackParentOf o resourceControls with
    | some src => simp [hsp, decorateObject_jget_self]
    | none => simp [hsp, hp]

/-- The stack parent of a decorated object is the stack parent of the object:
decoration does not disturb the label lookup. -/
theorem stackParentOf_decorateObject (o : List (String × JVal))
    (rc : Option ResourceControl) (resourceControls : List ResourceControl) :
    stackParentOf (decorateObject o rc) resourceControls =
      stackParentOf o resourceControls := by
  simp [stackParentOf, stackLabelValueOf_decorateObject]

/-- List operation, case "Volumes" absent or null: the body is rewritten
unchanged with success status, for every caller. -/
theorem volumeListOperation_noVolumes (responseObject : List (String × JVal))
    (ctx : restrictedDockerOperationContext)
    (h : goGet responseObject "Volumes" = none) :
    volumeListOperation responseObject ctx =
      Except.ok (RewriteResponse (JVal.obj responseObject) 200) := by
  simp [volumeListOperation, h]

/-- List operation, privileged caller: every well-formed item is decorated in
place. -/
theorem volumeListOperation_privileged (responseObject : List (String × JVal))
    (volumeData : List JVal) (ctx : restrictedDockerOperationContext)
    (hvol : goGet responseObject "Volumes" = some (JVal.arr volumeData))
    (hadm : (ctx.isAdmin || ctx.endpointResourceAccess) = true)
    (hwf : ∀ v ∈ volumeData, wfElem v = true) :
    volumeListOperation responseObject ctx =
      Except.ok (RewriteResponse (JVal.obj (goSet responseObject "Volumes"
        (JVal.arr (volumeData.map (decorateElem ctx.resourceControls))))) 200) := by
  simp [volumeListOperation, hvol, JVal.asArr, hadm,
    decorateVolumeList_eq_map volumeData ctx.resourceControls hwf]

/-- List operation, restricted caller: the body is the ordered `filterMap` of
the per-item decision. -/
theorem volumeListOperation_restricted (responseObject : List (String × JVal))
    (volumeData : List JVal) (ctx : restrictedDockerOperationContext)
    (hvol : goGet responseObject "Volumes" = some (JVal.arr volumeData))
    (hadm : (ctx.isAdmin || ctx.endpointResourceAccess) = false)
    (hwf : ∀ v ∈ volumeData, wfElem v = true) :
    volumeListOperation responseObject ctx =
      Except.ok (RewriteResponse (JVal.obj (goSet responseObject "Volumes"
        (JVal.arr (volumeData.filterMap (listElemOutcome ctx))))) 200) := by
  simp [volumeListOperation, hvol, JVal.asArr, hadm,
    filterVolumeList_eq_filterMap volumeData ctx hwf]

/-- The privileged decoration fails with the missing-identifier error as soon
as an item without an identifier is reached, whatever follows it. -/
theorem decorateVolumeList_missing_id (pre : List JVal)
    (resourceControls : List ResourceControl)
    (hpre : ∀ v ∈ pre, wfElem v = true) (ob : List (String × JVal))
    (hob : goGet ob volumeIdentifier = none) (rest : List JVal) :
    decorateVolumeList (pre ++ JVal.obj ob :: rest) resourceControls =
      Except.error DockerOpError.volumeIdentifierNotFound := by
  induction pre with
  | nil => simp [decorateVolumeList, JVal.asObj, hob]
  | cons v pre2 ih =>
    have hv := hpre v (List.mem_cons_self v pre2)
    have hpre2 : ∀ w ∈ pre2, wfElem w = true :=
      fun w hw => hpre w (List.mem_cons_of_mem v hw)
    cases v with
    | obj o =>
      rw [List.cons_append,
        decorateVolumeList_cons o (pre2 ++ JVal.obj ob :: rest) resourceControls
          (by simpa [wfElem] using hv),
        ih hpre2]
      rfl
    | null => simp [wfElem] at hv
    | bool b => simp [wfElem] at hv
    | num n => simp [wfElem] at hv
    | str s => simp [wfElem] at hv
    | arr l => simp [wfElem] at hv

/-- The restricted filter fails with the missing-identifier error as soon as
an item without an identifier is reached, whatever follows it. -/
theorem filterVolumeList_missing_id (pre : List JVal)
    (ctx : restrictedDockerOperationContext)
    (hpre : ∀ v ∈ pre, wfElem v = true) (ob : List (String × JVal))
    (hob : goGet ob volumeIdentifier = none) (rest : List JVal) :
    filterVolumeList (pre ++ JVal.obj ob :: rest) ctx =
      Except.error DockerOpError.volumeIdentifierNotFound := by
  induction pre with
  | nil => simp [filterVolumeList, JVal.asObj, hob]
  | cons v pre2 ih =>
    have hv := hpre v (List.mem_cons_self v pre2)
    have hpre2 : ∀ w ∈ pre2, wfElem w = true :=
      fun w hw => hpre w (List.mem_cons_of_mem v hw)
    cases v with
    | obj o =>
      rw [List.cons_append,
        filterVolumeList_cons o (pre2 ++ JVal.obj ob :: rest) ctx
          (by simpa [wfElem] using hv),
        ih hpre2]
      cases ho : listItemOutcome ctx o <;> simp [Except.map]
    | null => simp [wfElem] at hv
    | bool b => simp [wfElem] at hv
    | num n => simp [wfElem] at hv
    | str s => simp [wfElem] at hv
    | arr l => simp [wfElem] at hv

/-! ## Concrete fixtures used by counterexamples and witnesses -/

/-- A direct volume record for `"v1"` owned by user 2 only (denies user 1). -/
def rcVolDeny : ResourceControl :=
  ResourceControl.mk "v1" ResourceControlType.volume [2] [] false

/-- A public stack record for `"s1"`. -/
def rcStackPub : ResourceControl :=
  ResourceControl.mk "s1" ResourceControlType.stack [] [] true

/-- A non-privileged caller: user 1, no teams, no blanket access. -/
def ctxRestricted : restrictedDockerOperationContext :=
  restrictedDockerOperationContext.mk 1 [] false false [rcVolDeny, rcStackPub]

/-- A volume named `"v1"` labelled as part of stack `"s1"`. -/
def itemMixed : List (String × JVal) :=
  [("Name", JVal.str "v1"),
   ("Labels", JVal.obj [("com.docker.stack.namespace", JVal.str "s1")])]

/-- A direct volume record for `"v9"` owned by user 7 only (denies user 3). -/
def rcVolDeny9 : ResourceControl :=
  ResourceControl.mk "v9" ResourceControlType.volume [7] [] false

/-- A public stack record for `"s9"`. -/
def rcStackPub9 : ResourceControl :=
  ResourceControl.mk "s9" ResourceControlType.stack [] [] true

/-- A non-privileged caller: user 3, no teams, no blanket access. -/
def ctxRestricted9 : restrictedDockerOperationContext :=
  restrictedDockerOperationContext.mk 3 [] false false [rcVolDeny9, rcStackPub9]

/-- A volume named `"v9"` labelled as part of stack `"s9"`. -/
def itemMixed9 : List (String × JVal) :=
  [("Name", JVal.str "v9"),
   ("Labels", JVal.obj [("com.docker.stack.namespace", JVal.str "s9")])]

/-- An administrator caller with no records in the snapshot. -/
def ctxAdmin : restrictedDockerOperationContext :=
  restrictedDockerOperationContext.mk 0 [] true false []

/-- A non-privileged caller with an empty snapshot. -/
def ctxEmpty : restrictedDockerOperationContext :=
  restrictedDockerOperationContext.mk 0 [] false false []

/-- A public stack record whose resource identifier is the empty string. -/
def rcStackEmptyID : ResourceControl :=
  ResourceControl.mk "" ResourceControlType.stack [] [] true

/-- A volume whose stack-namespace label is present but empty. -/
def itemEmptyLabel : List (String × JVal) :=
  [("Name", JVal.str "vE"),
   ("Labels", JVal.obj [("com.docker.stack.namespace", JVal.str "")])]

/-! ## Restricted per-item decision without blanket access (amended claim C1) -/

/-- Label fallback of the amended claim C1, phrased with `CanAccess` only (the
caller is non-privileged). -/
def restrictedLabelFallback (userID : Nat) (userTeamIDs : List Nat)
    (resourceControls : List ResourceControl) (o : List (String × JVal)) :
    Option (List (String × JVal)) :=
  match stackParentOf o resourceControls with
  | none => none
  | some rc =>
    if UserCanAccessResource userID userTeamIDs (some rc) then
      some (decorateObject o (some rc))
    else none

/-- Per-item rule of the amended claim C1: keep the item, decorated with the
granting record, when the direct record exists and `CanAccess` grants, or
when the direct record does not grant (absent or denying) and the
label-resolved parent record exists and `CanAccess` grants; drop it
otherwise. -/
def restrictedItemOutcome (userID : Nat) (userTeamIDs : List Nat)
    (resourceControls : List ResourceControl) (o : List (String × JVal)) :
    Option (List (String × JVal)) :=
  match GetResourceControlByResourceIDAndType (identifierOf o)
      ResourceControlType.volume resourceControls with
  | some rc =>
    if UserCanAccessResource userID userTeamIDs (some rc) then
      some (decorateObject o (some rc))
    else restrictedLabelFallback userID userTeamIDs resourceControls o
  | none => restrictedLabelFallback userID userTeamIDs resourceControls o

/-- The amended claim C1 decision lifted to array elements. -/
def restrictedElemOutcome (userID : Nat) (userTeamIDs : List Nat)
    (resourceControls : List ResourceControl) : JVal → Option JVal
  | JVal.obj o => (restrictedItemOutcome userID userTeamIDs resourceControls o).map JVal.obj
  | _ => none

/-- For a non-privileged caller the grant condition of the engine reduces to
`CanAccess`, so the engine's per-element decision is the amended claim's. -/
theorem listElemOutcome_nonpriv (ctx : restrictedDockerOperationContext)
    (h1 : ctx.isAdmin = false) (h2 : ctx.endpointResourceAccess = false) (v : JVal) :
    listElemOutcome ctx v =
      restrictedElemOutcome ctx.userID ctx.userTeamIDs ctx.resourceControls v := by
  cases v <;> simp only [listElemOutcome, restrictedElemOutcome]
  case obj o =>
    unfold listItemOutcome restrictedItemOutcome labelFallbackOutcome restrictedLabelFallback
    simp [grantsAccess, h1, h2]

/-! ## The claims -/

/-- Claim C1 counterexample: for the non-privileged caller `ctxRestricted`
(user 1, no teams, no blanket access) and the single-item list
`[itemMixed]`, the effective ownership record of the item is its direct
record `rcVolDeny`, and `CanAccess` denies it — so the claim as stated
requires the item to be dropped — yet `filterVolumeList` keeps the item,
decorated with the public stack record its label resolves to. -/
theorem claim1_counterexample :
    findInheritedVolumeResourceControl itemMixed ctxRestricted.resourceControls =
      Except.ok (some rcVolDeny) ∧
    UserCanAccessResource ctxRestricted.userID ctxRestricted.userTeamIDs
      (some rcVolDeny) = false ∧
    ctxRestricted.isAdmin = false ∧ ctxRestricted.endpointResourceAccess = false ∧
    filterVolumeList [JVal.obj itemMixed] ctxRestricted =
      Except.ok [JVal.obj (decorateObject itemMixed (some rcStackPub))] :=
  ⟨rfl, rfl, rfl, rfl, rfl⟩

/-- Claim C1 (amended): for every list-shape response and every non-privileged
caller, the output array is the ordered `filterMap` of the per-item rule
`restrictedItemOutcome`: an item is kept, decorated with the granting record,
exactly when its direct record exists and grants access (public, owner user
match, or team intersection), or when the direct record does not grant access
(it is absent or it denies) and the label-resolved parent record exists and
grants access; all other items are dropped, and kept items appear in the same
relative order as in the upstream response.  (The amendment the counterexample
forces: when a direct record exists but denies, the label-resolved parent
record is still consulted, so such an item can be kept.) -/
theorem claim1_amended (volumeData : List JVal)
    (ctx : restrictedDockerOperationContext)
    (h1 : ctx.isAdmin = false) (h2 : ctx.endpointResourceAccess = false)
    (hwf : ∀ v ∈ volumeData, wfElem v = true) :
    filterVolumeList volumeData ctx =
      Except.ok (volumeData.filterMap
        (restrictedElemOutcome ctx.userID ctx.userTeamIDs ctx.resourceControls)) := by
  rw [filterVolumeList_eq_filterMap volumeData ctx hwf]
  have hfun : listElemOutcome ctx =
      restrictedElemOutcome ctx.userID ctx.userTeamIDs ctx.resourceControls :=
    funext (listElemOutcome_nonpriv ctx h1 h2)
  rw [hfun]

/-- Claim C1 amended witness: the amended rule evaluated on the concrete
counterexample scenario. -/
theorem claim1_amended_witness :
    filterVolumeList [JVal.obj itemMixed] ctxRestricted =
      Except.ok ([JVal.obj itemMixed].filterMap
        (restrictedElemOutcome ctxRestricted.userID ctxRestricted.userTeamIDs
          ctxRestricted.resourceControls)) :=
  claim1_amended [JVal.obj itemMixed] ctxRestricted rfl rfl
    (by intro v hv; simp at hv; subst hv; rfl)

/-- Claim C2: on a well-formed single-item (inspect) response, a nil effective
record with a privileged caller returns the item unchanged with status 200; a
non-nil record with a privileged caller or a `CanAccess` grant returns the
item decorated with that record and status 200; in every other case the
result is the fixed access-denied response, a constant that contains no field
of the original object. -/
theorem claim2 (o : List (String × JVal)) (ctx : restrictedDockerOperationContext)
    (rec : Option ResourceControl) (hwf : wfVolumeObject o = true)
    (hres : findInheritedVolumeResourceControl o ctx.resourceControls = Except.ok rec) :
    (rec = none → (ctx.isAdmin || ctx.endpointResourceAccess) = true →
      volumeInspectOperation o ctx = Except.ok (RewriteResponse (JVal.obj o) 200)) ∧
    (∀ rc, rec = some rc →
      (ctx.isAdmin || ctx.endpointResourceAccess ||
        UserCanAccessResource ctx.userID ctx.userTeamIDs (some rc)) = true →
      volumeInspectOperation o ctx =
        Except.ok (RewriteResponse (JVal.obj (decorateObject o (some rc))) 200)) ∧
    ((ctx.isAdmin || ctx.endpointResourceAccess ||
        UserCanAccessResource ctx.userID ctx.userTeamIDs rec) = false →
      volumeInspectOperation o ctx = Except.ok RewriteAccessDeniedResponse) ∧
    RewriteAccessDeniedResponse =
      RewrittenResponse.mk (JVal.obj [("message", JVal.str "access denied to resource")]) 403 := by
  have heq := volumeInspectOperation_eq o ctx hwf
  have hrec : effectiveOf o ctx.resourceControls = rec := by
    rw [findInheritedVolumeResourceControl_eq o ctx.resourceControls hwf] at hres
    exact Except.ok.inj hres
  rw [hrec] at heq
  refine ⟨?_, ?_, ?_, rfl⟩
  · intro h0 hadm
    rw [h0] at heq
    simpa [hadm] using heq
  · intro rc h0 hg
    rw [h0] at heq
    simpa [hg] using heq
  · intro hg
    cases h0 : rec with
    | none =>
      rw [h0] at heq hg
      have hadm : (ctx.isAdmin || ctx.endpointResourceAccess) = false := by
        simp [UserCanAccessResource] at hg
        simp [hg]
      simpa [hadm] using heq
    | some rc =>
      rw [h0] at heq hg
      simpa [hg] using heq

/-- Claim C2 witness: a concrete restricted caller inspecting a volume with a
denying direct record receives exactly the fixed access-denied response. -/
theorem claim2_witness :
    volumeInspectOperation itemMixed9
      (restrictedDockerOperationContext.mk 3 [] false false [rcVolDeny9]) =
      Except.ok RewriteAccessDeniedResponse :=
  (claim2 itemMixed9 (restrictedDockerOperationContext.mk 3 [] false false [rcVolDeny9])
    (some rcVolDeny9) rfl rfl).2.2.1 rfl

/-- Pairing a well-formed item array with its privileged decoration: same
length and order, only the reserved field changes, and the reserved field is
installed exactly when a record resolves. -/
theorem forall₂_decorateElem (volumeData : List JVal)
    (resourceControls : List ResourceControl)
    (hwf : ∀ v ∈ volumeData, wfElem v = true)
    (hres : ∀ o, JVal.obj o ∈ volumeData → jget o "Portainer" = none) :
    List.Forall₂ (fun v w => ∃ o o2, v = JVal.obj o ∧ w = JVal.obj o2 ∧
        (∀ k, k ≠ "Portainer" → jget o2 k = jget o k) ∧
        ((jget o2 "Portainer").isSome = recordResolves resourceControls o))
      volumeData (volumeData.map (decorateElem resourceControls)) := by
  induction volumeData with
  | nil => exact List.Forall₂.nil
  | cons v rest ih =>
    have hv := hwf v (List.mem_cons_self v rest)
    have hrest : ∀ w ∈ rest, wfElem w = true :=
      fun w hw => hwf w (List.mem_cons_of_mem v hw)
    have hres2 : ∀ o, JVal.obj o ∈ rest → jget o "Portainer" = none :=
      fun o ho => hres o (List.mem_cons_of_mem v ho)
    cases v with
    | obj o =>
      refine List.Forall₂.cons ?_ (ih hrest hres2)
      exact ⟨o, decorateListItem resourceControls o, rfl, rfl,
        fun k hk => decorateListItem_frame resourceControls o k hk,
        decorateListItem_portainer resourceControls o
          (hres o (List.mem_cons_self (JVal.obj o) rest))⟩
    | null => simp [wfElem] at hv
    | bool b => simp [wfElem] at hv
    | num n => simp [wfElem] at hv
    | str s => simp [wfElem] at hv
    | arr l => simp [wfElem] at hv

/-- Claim C3: for a caller with blanket access (admin or endpoint access), the
list operation succeeds, the output array has exactly the items of the
upstream array in the same order (given that every item is a well-formed
object with an identifier and does not already carry the reserved field), and
each output item agrees with its source item on every field except the
reserved `"Portainer"` decoration field, which is present exactly when a
record (direct or label-resolved) resolves for the item and absent
otherwise. -/
theorem claim3 (responseObject : List (String × JVal)) (volumeData : List JVal)
    (ctx : restrictedDockerOperationContext)
    (hadm : (ctx.isAdmin || ctx.endpointResourceAccess) = true)
    (hvol : goGet responseObject "Volumes" = some (JVal.arr volumeData))
    (hwf : ∀ v ∈ volumeData, wfElem v = true)
    (hres : ∀ o, JVal.obj o ∈ volumeData → jget o "Portainer" = none) :
    ∃ out, volumeListOperation responseObject ctx =
        Except.ok (RewriteResponse
          (JVal.obj (goSet responseObject "Volumes" (JVal.arr out))) 200) ∧
      List.Forall₂ (fun v w => ∃ o o2, v = JVal.obj o ∧ w = JVal.obj o2 ∧
        (∀ k, k ≠ "Portainer" → jget o2 k = jget o k) ∧
        ((jget o2 "Portainer").isSome = recordResolves ctx.resourceControls o))
        volumeData out :=
  ⟨volumeData.map (decorateElem ctx.resourceControls),
    volumeListOperation_privileged responseObject volumeData ctx hvol hadm hwf,
    forall₂_decorateElem volumeData ctx.resourceControls hwf hres⟩

/-- Claim C3 witness: an admin caller with an empty snapshot listing one
volume gets the same item back in place. -/
theorem claim3_witness :
    ∃ out, volumeListOperation [("Volumes", JVal.arr [JVal.obj [("Name", JVal.str "w1")]])]
        ctxAdmin =
        Except.ok (RewriteResponse
          (JVal.obj (goSet [("Volumes", JVal.arr [JVal.obj [("Name", JVal.str "w1")]])]
            "Volumes" (JVal.arr out))) 200) ∧
      List.Forall₂ (fun v w => ∃ o o2, v = JVal.obj o ∧ w = JVal.obj o2 ∧
        (∀ k, k ≠ "Portainer" → jget o2 k = jget o k) ∧
        ((jget o2 "Portainer").isSome = recordResolves ctxAdmin.resourceControls o))
        [JVal.obj [("Name", JVal.str "w1")]] out :=
  claim3 [("Volumes", JVal.arr [JVal.obj [("Name", JVal.str "w1")]])]
    [JVal.obj [("Name", JVal.str "w1")]] ctxAdmin rfl rfl
    (by intro v hv; simp at hv; subst hv; rfl)
    (by intro o ho; simp at ho; subst ho; rfl)

/-- Claim C4 counterexample: for the non-privileged caller `ctxRestricted9`, a
direct record for the item exists (`rcVolDeny9`) and denies access, yet the
item is not dropped from the list output: the label-resolved parent record
`rcStackPub9` is consulted anyway and grants, so the item is kept.  The claim
as stated requires the item to be dropped regardless of any label-resolved
parent record. -/
theorem claim4_counterexample :
    GetResourceControlByResourceIDAndType "v9" ResourceControlType.volume
      ctxRestricted9.resourceControls = some rcVolDeny9 ∧
    UserCanAccessResource ctxRestricted9.userID ctxRestricted9.userTeamIDs
      (some rcVolDeny9) = false ∧
    ctxRestricted9.isAdmin = false ∧ ctxRestricted9.endpointResourceAccess = false ∧
    filterVolumeList [JVal.obj itemMixed9] ctxRestricted9 =
      Except.ok [JVal.obj (decorateObject itemMixed9 (some rcStackPub9))] :=
  ⟨rfl, rfl, rfl, rfl, rfl⟩

/-- Claim C4 (amended): the inspect-path resolver returns the direct record
whenever one exists for (identifier, resource type), and consults the parent
label only when no direct record is found, treating a label-resolved parent
record exactly as a direct one.  In the list path, however, the parent label
is consulted whenever the direct record does not grant access — including
when a direct record exists but denies — so, for a non-privileged caller, an
item whose direct record denies access is still kept (decorated with the
parent record) whenever its label-resolved parent record grants access. -/
theorem claim4_amended :
    (∀ o resourceControls rc, wfVolumeObject o = true →
      GetResourceControlByResourceIDAndType (identifierOf o)
        ResourceControlType.volume resourceControls = some rc →
      findInheritedVolumeResourceControl o resourceControls = Except.ok (some rc)) ∧
    (∀ o resourceControls, wfVolumeObject o = true →
      GetResourceControlByResourceIDAndType (identifierOf o)
        ResourceControlType.volume resourceControls = none →
      findInheritedVolumeResourceControl o resourceControls =
        Except.ok (stackParentOf o resourceControls)) ∧
    (∀ ctx o rc src rest out, ctx.isAdmin = false → ctx.endpointResourceAccess = false →
      wfVolumeObject o = true →
      GetResourceControlByResourceIDAndType (identifierOf o)
        ResourceControlType.volume ctx.resourceControls = some rc →
      UserCanAccessResource ctx.userID ctx.userTeamIDs (some rc) = false →
      stackParentOf o ctx.resourceControls = some src →
      UserCanAccessResource ctx.userID ctx.userTeamIDs (some src) = true →
      filterVolumeList rest ctx = Except.ok out →
      filterVolumeList (JVal.obj o :: rest) ctx =
        Except.ok (JVal.obj (decorateObject o (some src)) :: out)) := by
  refine ⟨?_, ?_, ?_⟩
  · intro o resourceControls rc hwf hrc
    rw [findInheritedVolumeResourceControl_eq o resourceControls hwf]
    simp [effectiveOf, hrc]
  · intro o resourceControls hwf hrc
    rw [findInheritedVolumeResourceControl_eq o resourceControls hwf]
    simp [effectiveOf, hrc]
  · intro ctx o rc src rest out h1 h2 hwf hrc hdeny hsp hgrant hrest
    rw [filterVolumeList_cons o rest ctx hwf]
    have hout : listItemOutcome ctx o = some (decorateObject o (some src)) := by
      simp [listItemOutcome, hrc, grantsAccess, h1, h2, hdeny,
        labelFallbackOutcome, hsp, hgrant]
    rw [hout, hrest]
    rfl

/-- Claim C4 amended witness: the three statements instantiated on the
concrete counterexample scenario (direct record denies, parent grants, item
kept). -/
theorem claim4_amended_witness :
    filterVolumeList [JVal.obj itemMixed9] ctxRestricted9 =
      Except.ok [JVal.obj (decorateObject itemMixed9 (some rcStackPub9))] :=
  claim4_amended.2.2 ctxRestricted9 itemMixed9 rcVolDeny9 rcStackPub9 [] []
    rfl rfl rfl rfl rfl rfl rfl rfl

/-- Claim C5: a processed item without the configured identifier field makes
the whole operation fail with the missing-identifier error and no body: the
inspect operation fails on its object directly, and the list operation fails
for every caller (privileged or not) as soon as any item of the array lacks
the identifier, whatever well-formed items precede it and whatever follows
it — no partial or modified body is produced, since the error carries no
body. -/
theorem claim5 :
    (∀ o ctx, goGet o volumeIdentifier = none →
      volumeInspectOperation o ctx = Except.error DockerOpError.volumeIdentifierNotFound) ∧
    (∀ responseObject ctx pre ob rest,
      goGet responseObject "Volumes" = some (JVal.arr (pre ++ JVal.obj ob :: rest)) →
      (∀ v ∈ pre, wfElem v = true) → goGet ob volumeIdentifier = none →
      volumeListOperation responseObject ctx =
        Except.error DockerOpError.volumeIdentifierNotFound) := by
  constructor
  · intro o ctx h
    simp [volumeInspectOperation, h]
  · intro responseObject ctx pre ob rest hvol hpre hob
    cases hadm : (ctx.isAdmin || ctx.endpointResourceAccess) with
    | true =>
      simp [volumeListOperation, hvol, JVal.asArr, hadm,
        decorateVolumeList_missing_id pre ctx.resourceControls hpre ob hob rest]
    | false =>
      simp [volumeListOperation, hvol, JVal.asArr, hadm,
        filterVolumeList_missing_id pre ctx hpre ob hob rest]

/-- Claim C5 witness: an admin listing whose second item lacks `"Name"` fails
with the missing-identifier error. -/
theorem claim5_witness :
    volumeListOperation
      [("Volumes", JVal.arr [JVal.obj [("Name", JVal.str "w1")],
        JVal.obj [("Driver", JVal.str "local")]])] ctxAdmin =
      Except.error DockerOpError.volumeIdentifierNotFound :=
  claim5.2 [("Volumes", JVal.arr [JVal.obj [("Name", JVal.str "w1")],
      JVal.obj [("Driver", JVal.str "local")]])] ctxAdmin
    [JVal.obj [("Name", JVal.str "w1")]] [("Driver", JVal.str "local")] [] rfl
    (by intro v hv; simp at hv; subst hv; rfl) rfl

/-- Claim C6 counterexample: the claim states that an empty label resolves to
nil, but `findInheritedVolumeResourceControl` treats a present empty-string
label like any other value: with no direct record and a snapshot holding a
stack record whose identifier is the empty string, resolution returns that
record, not nil.  (Only the separate Docker-client helper
`getInheritedResourceControlFromVolumeLabels` treats `""` as absent.) -/
theorem claim6_counterexample :
    GetResourceControlByResourceIDAndType (identifierOf itemEmptyLabel)
      ResourceControlType.volume [rcStackEmptyID] = none ∧
    stackLabelValueOf itemEmptyLabel = some "" ∧
    findInheritedVolumeResourceControl itemEmptyLabel [rcStackEmptyID] =
      Except.ok (some rcStackEmptyID) :=
  ⟨rfl, rfl, rfl⟩

/-- Claim C6 (amended): inheritance resolution is a pure total lookup over the
in-memory snapshot — on a well-formed item it never returns an error; with no
direct record it yields nil when the label is absent, and otherwise returns
exactly the direct lookup of the label value against stack records (which is
nil when no parent record exists).  An empty-string label value is looked up
like any other value, so it can yield a record whose identifier is the empty
string; by contrast, the Docker-client helper
`getInheritedResourceControlFromVolumeLabels` treats an empty label value as
absent and yields nil. -/
theorem claim6_amended (o : List (String × JVal)) (resourceControls : List ResourceControl)
    (hwf : wfVolumeObject o = true)
    (hdirect : GetResourceControlByResourceIDAndType (identifierOf o)
      ResourceControlType.volume resourceControls = none) :
    (stackLabelValueOf o = none →
      findInheritedVolumeResourceControl o resourceControls = Except.ok none) ∧
    (∀ s, stackLabelValueOf o = some s →
      findInheritedVolumeResourceControl o resourceControls =
        Except.ok (GetResourceControlByResourceIDAndType s
          ResourceControlType.stack resourceControls)) ∧
    (∀ labels, List.lookup volumeLabelForStackIdentifier labels = some "" →
      getInheritedResourceControlFromVolumeLabels (Except.ok labels) resourceControls =
        Except.ok none) := by
  refine ⟨?_, ?_, ?_⟩
  · intro hval
    rw [findInheritedVolumeResourceControl_eq o resourceControls hwf]
    simp [effectiveOf, hdirect, stackParentOf, hval]
  · intro s hval
    rw [findInheritedVolumeResourceControl_eq o resourceControls hwf]
    simp [effectiveOf, hdirect, stackParentOf, hval]
  · intro labels hlk
    simp [getInheritedResourceControlFromVolumeLabels, hlk]

/-- Claim C6 amended witness: the empty-label scenario evaluated concretely,
both for the resolver (returns the empty-identifier record) and for the
Docker-client helper (returns nil). -/
theorem claim6_amended_witness :
    findInheritedVolumeResourceControl itemEmptyLabel [rcStackEmptyID] =
      Except.ok (GetResourceControlByResourceIDAndType ""
        ResourceControlType.stack [rcStackEmptyID]) ∧
    getInheritedResourceControlFromVolumeLabels
      (Except.ok [("com.docker.stack.namespace", "")]) [rcStackEmptyID] =
      Except.ok none :=
  ⟨(claim6_amended itemEmptyLabel [rcStackEmptyID] rfl rfl).2.1 "" rfl,
   (claim6_amended itemEmptyLabel [rcStackEmptyID] rfl rfl).2.2
     [("com.docker.stack.namespace", "")] rfl⟩

/-- Claim C7: round-trip frame property — every item kept in the output of the
restricted list filter, of the privileged list decoration, or of a successful
(status 200) inspect, agrees with its decoded source item on every field
other than the reserved `"Portainer"` decoration field. -/
theorem claim7 :
    (∀ volumeData ctx out, (∀ v ∈ volumeData, wfElem v = true) →
      filterVolumeList volumeData ctx = Except.ok out →
      ∀ w ∈ out, ∃ o o2, JVal.obj o ∈ volumeData ∧ w = JVal.obj o2 ∧
        ∀ k, k ≠ "Portainer" → jget o2 k = jget o k) ∧
    (∀ volumeData resourceControls out, (∀ v ∈ volumeData, wfElem v = true) →
      decorateVolumeList volumeData resourceControls = Except.ok out →
      ∀ w ∈ out, ∃ o o2, JVal.obj o ∈ volumeData ∧ w = JVal.obj o2 ∧
        ∀ k, k ≠ "Portainer" → jget o2 k = jget o k) ∧
    (∀ o ctx o2, volumeInspectOperation o ctx =
        Except.ok (RewriteResponse (JVal.obj o2) 200) →
      ∀ k, k ≠ "Portainer" → jget o2 k = jget o k) := by
  refine ⟨?_, ?_, ?_⟩
  · intro volumeData ctx out hwf hrun w hw
    rw [filterVolumeList_eq_filterMap volumeData ctx hwf] at hrun
    have hout := Except.ok.inj hrun
    subst hout
    obtain ⟨v, hv, hfv⟩ := List.mem_filterMap.mp hw
    cases v with
    | obj o =>
      simp only [listElemOutcome, Option.map_eq_some'] at hfv
      obtain ⟨o2, ho2, hw2⟩ := hfv
      exact ⟨o, o2, hv, hw2.symm,
        fun k hk => listItemOutcome_frame ctx o o2 ho2 k hk⟩
    | null => simp [listElemOutcome] at hfv
    | bool b => simp [listElemOutcome] at hfv
    | num n => simp [listElemOutcome] at hfv
    | str s => simp [listElemOutcome] at hfv
    | arr l => simp [listElemOutcome] at hfv
  · intro volumeData resourceControls out hwf hrun w hw
    rw [decorateVolumeList_eq_map volumeData resourceControls hwf] at hrun
    have hout := Except.ok.inj hrun
    subst hout
    obtain ⟨v, hv, hdv⟩ := List.mem_map.mp hw
    have hv2 := hwf v hv
    cases v with
    | obj o =>
      refine ⟨o, decorateListItem resourceControls o, hv, ?_, ?_⟩
      · rw [← hdv]
        rfl
      · exact fun k hk => decorateListItem_frame resourceControls o k hk
    | null => simp [wfElem] at hv2
    | bool b => simp [wfElem] at hv2
    | num n => simp [wfElem] at hv2
    | str s => simp [wfElem] at hv2
    | arr l => simp [wfElem] at hv2
  · intro o ctx o2 h
    by_cases hidn : (goGet o volumeIdentifier).isNone
    · simp [volumeInspectOperation, hidn] at h
    · cases hfi : findInheritedVolumeResourceControl o ctx.resourceControls with
      | error e => simp [volumeInspectOperation, hidn, hfi] at h
      | ok rec =>
        cases hc1 : (rec.isNone && (ctx.isAdmin || ctx.endpointResourceAccess)) with
        | true =>
          simp [volumeInspectOperation, hidn, hfi, hc1, RewriteResponse] at h
          subst h
          exact fun k hk => rfl
        | false =>
          cases hc2 : (ctx.isAdmin || ctx.endpointResourceAccess ||
              UserCanAccessResource ctx.userID ctx.userTeamIDs rec) with
          | true =>
            simp [volumeInspectOperation, hidn, hfi, hc1, hc2, RewriteResponse] at h
            intro k hk
            rw [← h]
            exact decorateObject_jget_ne o rec k hk
          | false =>
            simp [volumeInspectOperation, hidn, hfi, hc1, hc2, RewriteResponse,
              RewriteAccessDeniedResponse, RewrittenResponse.mk.injEq] at h

/-- Claim C7 witness: the frame property read off the concrete kept item of
the counterexample scenario — the decorated output item carries the original
`"Name"` and `"Labels"` fields unchanged. -/
theorem claim7_witness :
    ∃ o o2, JVal.obj o ∈ [JVal.obj itemMixed] ∧
      JVal.obj (decorateObject itemMixed (some rcStackPub)) = JVal.obj o2 ∧
      ∀ k, k ≠ "Portainer" → jget o2 k = jget o k :=
  claim7.1 [JVal.obj itemMixed] ctxRestricted
    [JVal.obj (decorateObject itemMixed (some rcStackPub))]
    (by intro v hv; simp at hv; subst hv; rfl) rfl
    (JVal.obj (decorateObject itemMixed (some rcStackPub)))
    (List.mem_singleton.mpr rfl)

/-- Claim C8: an item whose effective ownership record is public is kept
(decorated with that record) in the restricted list output whenever the
caller's array is well formed, and its inspect succeeds with the decorated
item and status 200, for every authenticated non-privileged caller regardless
of user ID and team memberships. -/
theorem claim8 (ctx : restrictedDockerOperationContext) (o : List (String × JVal))
    (r : ResourceControl) (volumeData : List JVal)
    (h1 : ctx.isAdmin = false) (h2 : ctx.endpointResourceAccess = false)
    (hwfo : wfVolumeObject o = true)
    (heff : findInheritedVolumeResourceControl o ctx.resourceControls =
      Except.ok (some r))
    (hpub : r.public = true)
    (hmem : JVal.obj o ∈ volumeData)
    (hwf : ∀ v ∈ volumeData, wfElem v = true) :
    (∃ out, filterVolumeList volumeData ctx = Except.ok out ∧
      JVal.obj (decorateObject o (some r)) ∈ out) ∧
    volumeInspectOperation o ctx =
      Except.ok (RewriteResponse (JVal.obj (decorateObject o (some r))) 200) := by
  have heq := findInheritedVolumeResourceControl_eq o ctx.resourceControls hwfo
  rw [heq] at heff
  have heff2 : effectiveOf o ctx.resourceControls = some r := Except.ok.inj heff
  have hca : UserCanAccessResource ctx.userID ctx.userTeamIDs (some r) = true := by
    simp [UserCanAccessResource, hpub]
  have hout : listItemOutcome ctx o = some (decorateObject o (some r)) := by
    unfold effectiveOf at heff2
    cases hrc : GetResourceControlByResourceIDAndType (identifierOf o)
        ResourceControlType.volume ctx.resourceControls with
    | some rc =>
      rw [hrc] at heff2
      have : rc = r := by simpa using heff2
      subst this
      simp [listItemOutcome, hrc, grantsAccess, hca]
    | none =>
      rw [hrc] at heff2
      simp only [] at heff2
      simp [listItemOutcome, hrc, labelFallbackOutcome, heff2, grantsAccess, hca]
  constructor
  · refine ⟨volumeData.filterMap (listElemOutcome ctx),
      filterVolumeList_eq_filterMap volumeData ctx hwf, ?_⟩
    exact List.mem_filterMap.mpr ⟨JVal.obj o, hmem, by simp [listElemOutcome, hout]⟩
  · rw [volumeInspectOperation_eq o ctx hwfo, heff2]
    simp [hca]

/-- Claim C8 witness: user 5 of no team can list and inspect a volume whose
only record is a public stack record resolved through its label. -/
theorem claim8_witness :
    (∃ out, filterVolumeList [JVal.obj [("Name", JVal.str "vp"),
        ("Labels", JVal.obj [("com.docker.stack.namespace", JVal.str "s1")])]]
        (restrictedDockerOperationContext.mk 5 [] false false [rcStackPub]) =
        Except.ok out ∧
      JVal.obj (decorateObject [("Name", JVal.str "vp"),
        ("Labels", JVal.obj [("com.docker.stack.namespace", JVal.str "s1")])]
        (some rcStackPub)) ∈ out) ∧
    volumeInspectOperation [("Name", JVal.str "vp"),
        ("Labels", JVal.obj [("com.docker.stack.namespace", JVal.str "s1")])]
      (restrictedDockerOperationContext.mk 5 [] false false [rcStackPub]) =
      Except.ok (RewriteResponse (JVal.obj (decorateObject [("Name", JVal.str "vp"),
        ("Labels", JVal.obj [("com.docker.stack.namespace", JVal.str "s1")])]
        (some rcStackPub))) 200) :=
  claim8 (restrictedDockerOperationContext.mk 5 [] false false [rcStackPub])
    [("Name", JVal.str "vp"),
      ("Labels", JVal.obj [("com.docker.stack.namespace", JVal.str "s1")])]
    rcStackPub
    [JVal.obj [("Name", JVal.str "vp"),
      ("Labels", JVal.obj [("com.docker.stack.namespace", JVal.str "s1")])]]
    rfl rfl rfl rfl rfl (List.mem_singleton.mpr rfl)
    (by intro v hv; simp at hv; subst hv; rfl)

/-- Claim C9: when the `"Volumes"` field of the list body is absent or JSON
null, the list operation succeeds for every caller, rewriting the body
unchanged with status 200 — no identifier check, no filtering and no
decoration happen. -/
theorem claim9 (responseObject : List (String × JVal))
    (ctx : restrictedDockerOperationContext)
    (h : goGet responseObject "Volumes" = none) :
    volumeListOperation responseObject ctx =
      Except.ok (RewriteResponse (JVal.obj responseObject) 200) :=
  volumeListOperation_noVolumes responseObject ctx h

/-- Claim C9 witness: a body whose `"Volumes"` field is JSON null passes
through unchanged for a restricted caller, and the item inside it is never
examined (it even lacks an identifier). -/
theorem claim9_witness :
    volumeListOperation [("Volumes", JVal.null), ("Warnings", JVal.null)] ctxEmpty =
      Except.ok (RewriteResponse
        (JVal.obj [("Volumes", JVal.null), ("Warnings", JVal.null)]) 200) :=
  claim9 [("Volumes", JVal.null), ("Warnings", JVal.null)] ctxEmpty rfl

/-- Claim C10: the operations are total only on well-typed bodies — a present
identifier of non-string type makes both list paths and the inspect fail with
the type-assertion panic (not the missing-identifier error); a non-object
array element panics likewise; and in the inspect path a present non-string
stack-namespace label value (reached when no direct record exists) panics
rather than resolving to nil. -/
theorem claim10 :
    (∀ ctx rest o v, goGet o volumeIdentifier = some v → (∀ s, v ≠ JVal.str s) →
      filterVolumeList (JVal.obj o :: rest) ctx =
        Except.error DockerOpError.typeAssertionPanic ∧
      decorateVolumeList (JVal.obj o :: rest) ctx.resourceControls =
        Except.error DockerOpError.typeAssertionPanic ∧
      volumeInspectOperation o ctx = Except.error DockerOpError.typeAssertionPanic) ∧
    (∀ ctx rest v, (∀ o, v ≠ JVal.obj o) →
      filterVolumeList (v :: rest) ctx = Except.error DockerOpError.typeAssertionPanic ∧
      decorateVolumeList (v :: rest) ctx.resourceControls =
        Except.error DockerOpError.typeAssertionPanic) ∧
    (∀ ctx o s ls w, goGet o volumeIdentifier = some (JVal.str s) →
      GetResourceControlByResourceIDAndType s ResourceControlType.volume
        ctx.resourceControls = none →
      extractVolumeLabelsFromVolumeInspectObject o = some ls →
      goGet ls volumeLabelForStackIdentifier = some w → (∀ t, w ≠ JVal.str t) →
      volumeInspectOperation o ctx = Except.error DockerOpError.typeAssertionPanic) := by
  refine ⟨?_, ?_, ?_⟩
  · intro ctx rest o v hv hnstr
    cases v with
    | str s => exact absurd rfl (hnstr s)
    | null =>
      exfalso
      cases hj : jget o volumeIdentifier with
      | none => simp [goGet, hj] at hv
      | some u => cases u <;> simp [goGet, hj] at hv
    | bool b =>
      exact ⟨by simp [filterVolumeList, JVal.asObj, hv, goAssertString],
        by simp [decorateVolumeList, JVal.asObj, hv, goAssertString],
        by simp [volumeInspectOperation, hv, findInheritedVolumeResourceControl,
          goAssertString]⟩
    | num n =>
      exact ⟨by simp [filterVolumeList, JVal.asObj, hv, goAssertString],
        by simp [decorateVolumeList, JVal.asObj, hv, goAssertString],
        by simp [volumeInspectOperation, hv, findInheritedVolumeResourceControl,
          goAssertString]⟩
    | arr l =>
      exact ⟨by simp [filterVolumeList, JVal.asObj, hv, goAssertString],
        by simp [decorateVolumeList, JVal.asObj, hv, goAssertString],
        by simp [volumeInspectOperation, hv, findInheritedVolumeResourceControl,
          goAssertString]⟩
    | obj f =>
      exact ⟨by simp [filterVolumeList, JVal.asObj, hv, goAssertString],
        by simp [decorateVolumeList, JVal.asObj, hv, goAssertString],
        by simp [volumeInspectOperation, hv, findInheritedVolumeResourceControl,
          goAssertString]⟩
  · intro ctx rest v hnobj
    cases v with
    | obj o => exact absurd rfl (hnobj o)
    | null => exact ⟨by simp [filterVolumeList, JVal.asObj],
        by simp [decorateVolumeList, JVal.asObj]⟩
    | bool b => exact ⟨by simp [filterVolumeList, JVal.asObj],
        by simp [decorateVolumeList, JVal.asObj]⟩
    | num n => exact ⟨by simp [filterVolumeList, JVal.asObj],
        by simp [decorateVolumeList, JVal.asObj]⟩
    | str s => exact ⟨by simp [filterVolumeList, JVal.asObj],
        by simp [decorateVolumeList, JVal.asObj]⟩
    | arr l => exact ⟨by simp [filterVolumeList, JVal.asObj],
        by simp [decorateVolumeList, JVal.asObj]⟩
  · intro ctx o s ls w hid hrc hls hw hnstr
    cases w with
    | str t => exact absurd rfl (hnstr t)
    | null =>
      exfalso
      cases hj : jget ls volumeLabelForStackIdentifier with
      | none => simp [goGet, hj] at hw
      | some u => cases u <;> simp [goGet, hj] at hw
    | bool b =>
      simp [volumeInspectOperation, hid, findInheritedVolumeResourceControl,
        goAssertString, hrc, hls, hw]
    | num n =>
      simp [volumeInspectOperation, hid, findInheritedVolumeResourceControl,
        goAssertString, hrc, hls, hw]
    | arr l =>
      simp [volumeInspectOperation, hid, findInheritedVolumeResourceControl,
        goAssertString, hrc, hls, hw]
    | obj f =>
      simp [volumeInspectOperation, hid, findInheritedVolumeResourceControl,
        goAssertString, hrc, hls, hw]

/-- Claim C10 witness: a volume object whose `"Name"` field holds the number 5
makes list filtering, list decoration and inspect all fail with the
type-assertion panic. -/
theorem claim10_witness :
    filterVolumeList [JVal.obj [("Name", JVal.num 5)]] ctxEmpty =
      Except.error DockerOpError.typeAssertionPanic ∧
    decorateVolumeList [JVal.obj [("Name", JVal.num 5)]] ctxEmpty.resourceControls =
      Except.error DockerOpError.typeAssertionPanic ∧
    volumeInspectOperation [("Name", JVal.num 5)] ctxEmpty =
      Except.error DockerOpError.typeAssertionPanic :=
  claim10.1 ctxEmpty [] [("Name", JVal.num 5)] (JVal.num 5) rfl
    (fun s h => JVal.noConfusion h)

end Portainer
